import Mathlib

/-!
Shallow embedding of the GitPromptChain core (diff-statistics extraction,
chain metrics, chain lifecycle and commit-index storage) together with
theorems settling the specification claims.

JavaScript strings are modelled as Lean `String`s; the handful of string
primitives the source uses (`startsWith`, `split('\n')`, `trim`,
`toLowerCase`, the `/\?\s*$/` and `/\s+/` regexes) are defined here at the
character-list level, where Lean's list lemmas apply and the kernel can
evaluate them on concrete inputs.
-/

namespace GitPromptChain

/-! ## JS string primitives -/

/-- Models JS `String.prototype.startsWith`: the receiver's character
sequence begins with the argument's character sequence. -/
def strStartsWith (s pre : String) : Bool :=
  pre.data.isPrefixOf s.data

/-- Models JS `diff.split('\n')`: split on every newline character,
keeping empty fields (so `""` yields `[""]`). -/
def splitLines (s : String) : List String :=
  (s.data.splitOn '\n').map (fun cs => ⟨cs⟩)

/-- Models JS `String.prototype.trim`: strip leading and trailing
whitespace characters. -/
def jsTrim (s : String) : String :=
  ⟨((s.data.dropWhile Char.isWhitespace).reverse.dropWhile Char.isWhitespace).reverse⟩

/-- Models JS `String.prototype.toLowerCase` (character-wise lowering;
the source only compares ASCII verbs). -/
def jsToLower (s : String) : String :=
  ⟨s.data.map Char.toLower⟩

/-! ## Data model (`src/models/PromptChain.ts`) -/

/-- `FileDiff.changeType ∈ {'added', 'modified', 'deleted'}`. -/
inductive ChangeType where
  | added
  | modified
  | deleted
deriving DecidableEq, Repr

/-- One file's change within a step (`FileDiff`). -/
structure FileDiff where
  filePath : String
  changeType : ChangeType
  diff : String
  linesAdded : Nat
  linesDeleted : Nat
deriving DecidableEq, Repr

/-- One prompt/response exchange (`PromptStep`). `Date` timestamps are
modelled as epoch milliseconds. -/
structure PromptStep where
  id : String
  timestamp : Int
  prompt : String
  response : String
  fileDiffs : Option (List FileDiff)
deriving DecidableEq, Repr

/-- One logical unit of work (`PromptChain`). -/
structure PromptChain where
  chainId : String
  startTime : Int
  endTime : Option Int := none
  commitSha : Option String := none
  branch : Option String := none
  steps : List PromptStep
  summary : Option String := none
deriving DecidableEq, Repr

/-! ## DiffStatsExtractor (`src/utils/GitIntegration.ts`, `parseDiffStats`) -/

/-- The `{added, deleted}` result record of `parseDiffStats`. -/
structure DiffStats where
  added : Nat
  deleted : Nat
deriving DecidableEq, Repr

/-- Body of the `for (const line of lines)` loop of
`GitIntegration.parseDiffStats`: one line updates the running counters. -/
def diffStatsStep (acc : DiffStats) (line : String) : DiffStats :=
  if strStartsWith line "+" && !strStartsWith line "+++" then
    { acc with added := acc.added + 1 }
  else if strStartsWith line "-" && !strStartsWith line "---" then
    { acc with deleted := acc.deleted + 1 }
  else
    acc

/-- `GitIntegration.parseDiffStats`: scan the lines of the raw diff text,
counting a line as added when it starts with `+` but not `+++`, and as
deleted when it starts with `-` but not `---`. -/
def parseDiffStats (diff : String) : DiffStats :=
  let lines := splitLines diff
  lines.foldl diffStatsStep ⟨0, 0⟩

/-- A line the heuristic counts as added. -/
def addedLine (line : String) : Bool :=
  strStartsWith line "+" && !strStartsWith line "+++"

/-- A line the heuristic counts as deleted. -/
def deletedLine (line : String) : Bool :=
  strStartsWith line "-" && !strStartsWith line "---"

/-- The change-type classification inside `GitIntegration.getCommitDiffs`
(lines 95–114): a binary file is `modified`; otherwise `added` when only
insertions, `deleted` when only deletions, else `modified`. -/
def commitChangeType (binary : Bool) (linesAdded linesDeleted : Nat) : ChangeType :=
  if binary then
    ChangeType.modified
  else if linesAdded > 0 && linesDeleted == 0 then
    ChangeType.added
  else if linesAdded == 0 && linesDeleted > 0 then
    ChangeType.deleted
  else
    ChangeType.modified

/-! ## ChainMetrics (`src/utils/ChainMetrics.ts`) -/

/-- `prompts.styleCounts` of `PromptChainMetrics`. -/
structure StyleCounts where
  interrogative : Nat
  imperative : Nat
  narrative : Nat
deriving DecidableEq, Repr

/-- `prompts` of `PromptChainMetrics`. -/
structure PromptStats where
  totalLengthChars : Nat
  avgLengthChars : Nat
  styleCounts : StyleCounts
deriving DecidableEq, Repr

/-- The derived metrics record (`PromptChainMetrics`). -/
structure PromptChainMetrics where
  durationMs : Int
  modificationSteps : Nat
  uniqueFilesChanged : Nat
  totalLinesAdded : Nat
  totalLinesDeleted : Nat
  prompts : PromptStats
deriving DecidableEq, Repr

/-- The fixed verb list of `isImperative` in `ChainMetrics.ts` (the source
builds a `Set` from it; only membership is consulted). -/
def imperativeVerbs : List String :=
  ["add", "update", "fix", "create", "remove", "delete", "refactor", "rename",
   "implement", "write", "generate", "optimize", "document", "explain", "show"]

/-- `text.trim().split(/\s+/)[0]?.toLowerCase() || ''` from `isImperative`:
after trimming, the first `/\s+/`-delimited field is the maximal leading
run of non-whitespace characters (empty when the trimmed text is empty,
matching the JS `|| ''` fallback). -/
def firstWordLower (text : String) : String :=
  jsToLower ⟨(jsTrim text).data.takeWhile (fun c => !c.isWhitespace)⟩

/-- `ChainMetrics.isImperative`: the first whitespace-delimited word,
lowercased, is one of the fixed action verbs. -/
def isImperative (text : String) : Bool :=
  imperativeVerbs.contains (firstWordLower text)

/-- The `/\?\s*$/.test(step.prompt)` check in `computeChainMetrics`: the
prompt ends with `?` followed only by whitespace. -/
def isInterrogative (prompt : String) : Bool :=
  ((prompt.data.reverse.dropWhile Char.isWhitespace).head?) == some '?'

/-- The mutable accumulator block of `computeChainMetrics` (unique-file
set, counters for modification steps, line totals, prompt characters and
the three style buckets). -/
structure MetricsAcc where
  uniqueFiles : Finset String
  modificationSteps : Nat
  totalLinesAdded : Nat
  totalLinesDeleted : Nat
  totalPromptChars : Nat
  interrogative : Nat
  imperative : Nat
  narrative : Nat

/-- Body of the inner `step.fileDiffs.forEach` loop. -/
def fileDiffFold (acc : MetricsAcc) (d : FileDiff) : MetricsAcc :=
  { acc with
    uniqueFiles := insert d.filePath acc.uniqueFiles
    totalLinesAdded := acc.totalLinesAdded + d.linesAdded
    totalLinesDeleted := acc.totalLinesDeleted + d.linesDeleted }

/-- The `if (step.fileDiffs && step.fileDiffs.length > 0)` block of the
`chain.steps.forEach` loop: bump `modificationSteps` and run the inner
`forEach` over the step's file diffs. -/
def stepFoldDiffs (acc : MetricsAcc) (fileDiffs : Option (List FileDiff)) : MetricsAcc :=
  match fileDiffs with
  | some ds =>
    if ds.length > 0 then
      let acc := { acc with modificationSteps := acc.modificationSteps + 1 }
      ds.foldl fileDiffFold acc
    else
      acc
  | none => acc

/-- Body of the `chain.steps.forEach` loop of `computeChainMetrics`. -/
def stepFold (acc : MetricsAcc) (step : PromptStep) : MetricsAcc :=
  let acc := { acc with totalPromptChars := acc.totalPromptChars + step.prompt.data.length }
  let acc :=
    if isInterrogative step.prompt then
      { acc with interrogative := acc.interrogative + 1 }
    else if isImperative step.prompt then
      { acc with imperative := acc.imperative + 1 }
    else
      { acc with narrative := acc.narrative + 1 }
  stepFoldDiffs acc step.fileDiffs

/-- JS `Math.round(a / b)` for natural `a` and positive natural `b`:
round half up, i.e. `⌊a/b + 1/2⌋`. -/
def jsRoundDiv (a b : Nat) : Nat :=
  (2 * a + b) / (2 * b)

/-- `ChainMetrics.computeChainMetrics`: duration, file/line aggregates,
prompt-length statistics and the style histogram of a chain. -/
def computeChainMetrics (chain : PromptChain) : PromptChainMetrics :=
  let start := chain.startTime
  let endMs := chain.endTime.getD start
  let durationMs := max 0 (endMs - start)
  let acc :=
    chain.steps.foldl stepFold
      { uniqueFiles := ∅, modificationSteps := 0, totalLinesAdded := 0,
        totalLinesDeleted := 0, totalPromptChars := 0, interrogative := 0,
        imperative := 0, narrative := 0 }
  let avgLengthChars :=
    if chain.steps.length > 0 then jsRoundDiv acc.totalPromptChars chain.steps.length else 0
  { durationMs := durationMs
    modificationSteps := acc.modificationSteps
    uniqueFilesChanged := acc.uniqueFiles.card
    totalLinesAdded := acc.totalLinesAdded
    totalLinesDeleted := acc.totalLinesDeleted
    prompts :=
      { totalLengthChars := acc.totalPromptChars
        avgLengthChars := avgLengthChars
        styleCounts :=
          { interrogative := acc.interrogative
            imperative := acc.imperative
            narrative := acc.narrative } } }

/-- The first of the three ordered per-step classification predicates of
`computeChainMetrics`: step counts as interrogative. -/
def countsInterrogative (s : PromptStep) : Bool :=
  isInterrogative s.prompt

/-- Second bucket: not interrogative, and the prompt is imperative. -/
def countsImperative (s : PromptStep) : Bool :=
  !isInterrogative s.prompt && isImperative s.prompt

/-- Third bucket (catch-all): neither interrogative nor imperative. -/
def countsNarrative (s : PromptStep) : Bool :=
  !isInterrogative s.prompt && !isImperative s.prompt

/-! ## PromptChainManager (`src/core/PromptChainManager.ts`)

Effectful inputs (uuidv4, `new Date()`) are passed as explicit arguments;
the in-memory state is the `currentChain` slot, and the storage directory
is modelled as explicit maps for the three persisted file kinds. -/

/-- `PromptChainManagerConfig`. -/
structure PromptChainManagerConfig where
  storageDir : String
  repoPath : String
deriving DecidableEq, Repr

/-- `metadata` of a persisted document (`PromptChainMetadata`). -/
structure PromptChainMetadata where
  version : String
  created : Int
  repositoryName : String
  repositoryPath : String
  metrics : PromptChainMetrics
deriving DecidableEq, Repr

/-- The persisted unit (`PromptChainDocument`). -/
structure PromptChainDocument where
  metadata : PromptChainMetadata
  chain : PromptChain
deriving DecidableEq, Repr

/-- The in-memory state of a `PromptChainManager`: the mutable
`currentChain` slot (`null` when idle). -/
structure ManagerState where
  currentChain : Option PromptChain
deriving DecidableEq, Repr

/-- `PromptChainManager.startChain`: install a fresh chain (new id, now as
start time, empty steps) in the active slot, discarding any previous one. -/
def startChain (st : ManagerState) (freshId : String) (now : Int)
    (summary : Option String) : ManagerState × PromptChain :=
  let chain : PromptChain :=
    { chainId := freshId, startTime := now, steps := [], summary := summary }
  ({ st with currentChain := some chain }, chain)

/-- `PromptChainManager.addStep`: throws when no chain is active;
otherwise appends a fresh step to the active chain and returns it. -/
def addStep (st : ManagerState) (freshId : String) (now : Int)
    (prompt response : String) (fileDiffs : Option (List FileDiff)) :
    Except String (ManagerState × PromptStep) :=
  match st.currentChain with
  | none => Except.error "No active prompt chain. Call startChain() first."
  | some chain =>
    let step : PromptStep :=
      { id := freshId, timestamp := now, prompt := prompt,
        response := response, fileDiffs := fileDiffs }
    Except.ok
      ({ st with currentChain := some { chain with steps := chain.steps ++ [step] } },
       step)

/-- `PromptChainManager.endChain`: returns `null` when idle; otherwise
stamps end time, commit SHA and branch, clears the active slot and
returns the detached chain. -/
def endChain (st : ManagerState) (now : Int)
    (commitSha branch : Option String) : ManagerState × Option PromptChain :=
  match st.currentChain with
  | none => (st, none)
  | some chain =>
    let sealed : PromptChain :=
      { chain with endTime := some now, commitSha := commitSha, branch := branch }
    ({ st with currentChain := none }, some sealed)

/-- `PromptChainManager.getCurrentChain`. -/
def getCurrentChain (st : ManagerState) : Option PromptChain :=
  st.currentChain

/-- Node's `path.basename` for the POSIX-style paths the config carries:
the last non-empty `/`-separated component. -/
def pathBasename (p : String) : String :=
  ((p.data.splitOn '/').map (fun cs => (⟨cs⟩ : String))).foldl
    (fun acc s => if s = "" then acc else s) ""

/-- The storage directory's contents, one map per persisted file kind:
`chain-<chainId>.json` files keyed by chain id, the
`commits/<sha>/chain-<chainId>.json` duplicates keyed by SHA and chain id,
and the optional `commit-index.json` (`none` when the file is absent or
unparseable, in which case `saveChain` starts from an empty object). -/
structure Storage where
  chainFiles : String → Option PromptChainDocument
  commitFiles : String → String → Option PromptChainDocument
  commitIndex : Option (String → Option (List String))

/-- `Array.from(new Set(list))`: de-duplicate keeping first occurrences,
in order. -/
def jsSetFrom (l : List String) : List String :=
  l.foldl (fun acc x => if x ∈ acc then acc else acc ++ [x]) []

/-- `Set.prototype.add`: append if absent. -/
def jsSetAdd (s : List String) (x : String) : List String :=
  if x ∈ s then s else s ++ [x]

/-- The document built at the top of `saveChain` (version `"1.0.0"`,
creation time, repository name/path, freshly computed metrics). -/
def mkDocument (config : PromptChainManagerConfig) (now : Int)
    (chain : PromptChain) : PromptChainDocument :=
  { metadata :=
      { version := "1.0.0"
        created := now
        repositoryName := pathBasename config.repoPath
        repositoryPath := config.repoPath
        metrics := computeChainMetrics chain }
    chain := chain }

/-- `PromptChainManager.saveChain`: write `chain-<chainId>.json`; when the
chain carries a non-empty commit SHA, also write the duplicate under
`commits/<sha>/` and add the chain id to that SHA's de-duplicated entry in
`commit-index.json` (read-modify-write, starting from `{}` when the index
file is absent or unparseable). -/
def saveChain (config : PromptChainManagerConfig) (now : Int)
    (st : Storage) (chain : PromptChain) : Storage :=
  let document := mkDocument config now chain
  let st :=
    { st with
      chainFiles := fun k =>
        if k = chain.chainId then some document else st.chainFiles k }
  match chain.commitSha with
  | none => st
  | some sha =>
    if sha.length > 0 then
      let st :=
        { st with
          commitFiles := fun s k =>
            if s = sha ∧ k = chain.chainId then some document
            else st.commitFiles s k }
      let index := st.commitIndex.getD (fun _ => none)
      let list := jsSetAdd (jsSetFrom ((index sha).getD [])) chain.chainId
      { st with
        commitIndex :=
          some (fun s => if s = sha then some list else index s) }
    else
      st

/-- The commit-index entry for a SHA as `listChainsByCommit` reads it:
empty when the index file or the entry is absent. -/
def indexEntry (st : Storage) (sha : String) : List String :=
  ((st.commitIndex.getD (fun _ => none)) sha).getD []

/-! ## Concrete sample data for witnesses -/

/-- A concrete step with a three-character prompt. -/
def sampleStep1 : PromptStep :=
  { id := "s1", timestamp := 0, prompt := "abc", response := "r1", fileDiffs := none }

/-- A concrete step with a four-character prompt. -/
def sampleStep2 : PromptStep :=
  { id := "s2", timestamp := 1, prompt := "wxyz", response := "r2", fileDiffs := none }

/-- A concrete two-step chain. -/
def sampleChain : PromptChain :=
  { chainId := "c-sample", startTime := 0, steps := [sampleStep1, sampleStep2] }

/-- An empty storage directory: no chain files, no commit duplicates, no
index file. -/
def emptyStorage : Storage :=
  { chainFiles := fun _ => none
    commitFiles := fun _ _ => none
    commitIndex := none }

/-- A fixed manager configuration for the witnesses. -/
def sampleConfig : PromptChainManagerConfig :=
  { storageDir := "/tmp/store", repoPath := "/repo/app" }

/-- A concrete chain committed under SHA `sha1`. -/
def chainA : PromptChain :=
  { chainId := "a", startTime := 0, commitSha := some "sha1", steps := [] }

/-- A second concrete chain committed under SHA `sha1`. -/
def chainB : PromptChain :=
  { chainId := "b", startTime := 0, commitSha := some "sha1", steps := [] }

/-! ## Theorems: DiffStatsExtractor -/

/-- A line starting with `+` does not start with `-`. -/
theorem addedLine_not_deletedLine (l : String) (h : addedLine l = true) :
    deletedLine l = false := by
  simp only [addedLine, strStartsWith, Bool.and_eq_true] at h
  have h1 := h.1
  rw [List.isPrefixOf_iff_prefix] at h1
  obtain ⟨t, ht⟩ := h1
  have e2 : "-".data = ['-'] := rfl
  have hm : ("-".data).isPrefixOf l.data = false := by
    rw [Bool.eq_false_iff]
    intro hc
    rw [List.isPrefixOf_iff_prefix] at hc
    obtain ⟨u, hu⟩ := hc
    rw [← ht, e2] at hu
    simp only [List.cons_append, List.nil_append, List.cons.injEq] at hu
    exact absurd hu.1 (by decide)
  simp [deletedLine, strStartsWith, hm]

/-- One step of the `parseDiffStats` loop, phrased through the two line
predicates. -/
theorem diffStatsStep_eq (a d : Nat) (l : String) :
    diffStatsStep ⟨a, d⟩ l =
      if addedLine l then ⟨a + 1, d⟩
      else if deletedLine l then ⟨a, d + 1⟩
      else ⟨a, d⟩ := rfl

/-- The `parseDiffStats` fold counts added and deleted lines. -/
theorem foldl_diffStatsStep (ls : List String) (a d : Nat) :
    ls.foldl diffStatsStep ⟨a, d⟩ =
      ⟨a + ls.countP addedLine, d + ls.countP deletedLine⟩ := by
  induction ls generalizing a d with
  | nil => simp
  | cons l t ih =>
    simp only [List.foldl_cons, diffStatsStep_eq, List.countP_cons]
    by_cases hA : addedLine l = true
    · have hD := addedLine_not_deletedLine l hA
      rw [if_pos hA, ih]
      simp [hA, hD, DiffStats.mk.injEq] <;> omega
    · have hA' : addedLine l = false := by simpa using hA
      rw [if_neg hA]
      by_cases hD : deletedLine l = true
      · rw [if_pos hD, ih]
        simp [hA', hD, DiffStats.mk.injEq] <;> omega
      · have hD' : deletedLine l = false := by simpa using hD
        rw [if_neg hD, ih]
        simp [hA', hD', DiffStats.mk.injEq] <;> omega

/-- **C1.** `parseDiffStats` returns `added` equal to the number of lines
starting with `+` that are not `+++` file-header lines, and `deleted`
equal to the number of lines starting with `-` that are not `---` lines;
on `"+++ b/f\n+line1\n+line2\n--- a/f\n-old1"` it returns
`{added: 2, deleted: 1}`. -/
theorem parseDiffStats_counts :
    (∀ diff : String,
        parseDiffStats diff =
          ⟨(splitLines diff).countP addedLine,
           (splitLines diff).countP deletedLine⟩) ∧
    parseDiffStats "+++ b/f\n+line1\n+line2\n--- a/f\n-old1" = ⟨2, 1⟩ := by
  constructor
  · intro diff
    simpa [parseDiffStats] using foldl_diffStatsStep (splitLines diff) 0 0
  · decide

/-- **C2.** A diff text with no countable `+`/`-` content lines — in
particular the empty string, and any malformed text with no diff markers —
yields `{added: 0, deleted: 0}`; the extractor is a total function, so no
error is possible. -/
theorem parseDiffStats_degrades :
    parseDiffStats "" = ⟨0, 0⟩ ∧
    ∀ diff : String,
      (∀ l ∈ splitLines diff, addedLine l = false ∧ deletedLine l = false) →
      parseDiffStats diff = ⟨0, 0⟩ := by
  constructor
  · decide
  · intro diff h
    have h1 : (splitLines diff).countP addedLine = 0 :=
      List.countP_eq_zero.mpr (fun l hl => by simp [(h l hl).1])
    have h2 : (splitLines diff).countP deletedLine = 0 :=
      List.countP_eq_zero.mpr (fun l hl => by simp [(h l hl).2])
    have := foldl_diffStatsStep (splitLines diff) 0 0
    rw [h1, h2] at this
    simpa [parseDiffStats] using this

/-- Witness for C2 on a concrete malformed input. -/
theorem parseDiffStats_degrades_witness :
    (∀ l ∈ splitLines "no markers here\njust prose", addedLine l = false ∧ deletedLine l = false) ∧
    parseDiffStats "no markers here\njust prose" = ⟨0, 0⟩ :=
  ⟨by decide, parseDiffStats_degrades.2 "no markers here\njust prose" (by decide)⟩

/-- **C9.** Classification from numeric insertion/deletion counts:
`added` iff non-binary with insertions and no deletions, `deleted` iff
non-binary with deletions and no insertions, `modified` otherwise, and
always `modified` for binary files. -/
theorem commitChangeType_spec (binary : Bool) (ins dels : Nat) :
    (commitChangeType binary ins dels = ChangeType.added ↔
        binary = false ∧ 0 < ins ∧ dels = 0) ∧
    (commitChangeType binary ins dels = ChangeType.deleted ↔
        binary = false ∧ 0 < dels ∧ ins = 0) ∧
    (binary = true → commitChangeType binary ins dels = ChangeType.modified) ∧
    (binary = false → ¬(0 < ins ∧ dels = 0) → ¬(0 < dels ∧ ins = 0) →
        commitChangeType binary ins dels = ChangeType.modified) := by
  unfold commitChangeType
  cases binary
  · simp only [Bool.false_eq_true, if_false]
    split_ifs with h1 h2 <;>
      simp_all [Nat.beq_eq, decide_eq_true_eq] <;> omega
  · simp

/-- Witness for C9 at concrete counts. -/
theorem commitChangeType_spec_witness :
    commitChangeType true 5 0 = ChangeType.modified ∧
    commitChangeType false 5 0 = ChangeType.added ∧
    commitChangeType false 2 3 = ChangeType.modified :=
  ⟨(commitChangeType_spec true 5 0).2.2.1 rfl,
   (commitChangeType_spec false 5 0).1.mpr ⟨rfl, by decide, rfl⟩,
   (commitChangeType_spec false 2 3).2.2.2 rfl (by decide) (by decide)⟩

/-! ## Theorems: ChainMetrics -/

/-- The inner file-diff fold never touches the prompt-character counter. -/
@[simp] theorem foldl_fileDiffFold_totalPromptChars (ds : List FileDiff) (acc : MetricsAcc) :
    (ds.foldl fileDiffFold acc).totalPromptChars = acc.totalPromptChars := by
  induction ds generalizing acc with
  | nil => rfl
  | cons d t ih => exact ih (fileDiffFold acc d)

/-- The inner file-diff fold never touches the interrogative counter. -/
@[simp] theorem foldl_fileDiffFold_interrogative (ds : List FileDiff) (acc : MetricsAcc) :
    (ds.foldl fileDiffFold acc).interrogative = acc.interrogative := by
  induction ds generalizing acc with
  | nil => rfl
  | cons d t ih => exact ih (fileDiffFold acc d)

/-- The inner file-diff fold never touches the imperative counter. -/
@[simp] theorem foldl_fileDiffFold_imperative (ds : List FileDiff) (acc : MetricsAcc) :
    (ds.foldl fileDiffFold acc).imperative = acc.imperative := by
  induction ds generalizing acc with
  | nil => rfl
  | cons d t ih => exact ih (fileDiffFold acc d)

/-- The inner file-diff fold never touches the narrative counter. -/
@[simp] theorem foldl_fileDiffFold_narrative (ds : List FileDiff) (acc : MetricsAcc) :
    (ds.foldl fileDiffFold acc).narrative = acc.narrative := by
  induction ds generalizing acc with
  | nil => rfl
  | cons d t ih => exact ih (fileDiffFold acc d)

/-- The file-diff block never touches the prompt-character counter. -/
@[simp] theorem stepFoldDiffs_totalPromptChars (acc : MetricsAcc) (fd : Option (List FileDiff)) :
    (stepFoldDiffs acc fd).totalPromptChars = acc.totalPromptChars := by
  cases fd with
  | none => rfl
  | some ds =>
    simp only [stepFoldDiffs]
    split <;> simp

/-- The file-diff block never touches the interrogative counter. -/
@[simp] theorem stepFoldDiffs_interrogative (acc : MetricsAcc) (fd : Option (List FileDiff)) :
    (stepFoldDiffs acc fd).interrogative = acc.interrogative := by
  cases fd with
  | none => rfl
  | some ds =>
    simp only [stepFoldDiffs]
    split <;> simp

/-- The file-diff block never touches the imperative counter. -/
@[simp] theorem stepFoldDiffs_imperative (acc : MetricsAcc) (fd : Option (List FileDiff)) :
    (stepFoldDiffs acc fd).imperative = acc.imperative := by
  cases fd with
  | none => rfl
  | some ds =>
    simp only [stepFoldDiffs]
    split <;> simp

/-- The file-diff block never touches the narrative counter. -/
@[simp] theorem stepFoldDiffs_narrative (acc : MetricsAcc) (fd : Option (List FileDiff)) :
    (stepFoldDiffs acc fd).narrative = acc.narrative := by
  cases fd with
  | none => rfl
  | some ds =>
    simp only [stepFoldDiffs]
    split <;> simp

/-- One step of the metrics loop, on the four prompt-related fields. -/
theorem stepFold_fields (acc : MetricsAcc) (s : PromptStep) :
    (stepFold acc s).totalPromptChars = acc.totalPromptChars + s.prompt.data.length ∧
    (stepFold acc s).interrogative =
      acc.interrogative + (if countsInterrogative s then 1 else 0) ∧
    (stepFold acc s).imperative =
      acc.imperative + (if countsImperative s then 1 else 0) ∧
    (stepFold acc s).narrative =
      acc.narrative + (if countsNarrative s then 1 else 0) := by
  unfold stepFold
  by_cases h1 : isInterrogative s.prompt <;>
    by_cases h2 : isImperative s.prompt <;>
      simp [h1, h2, countsInterrogative, countsImperative, countsNarrative]

/-- The metrics fold counts interrogative steps. -/
theorem foldl_stepFold_interrogative (steps : List PromptStep) (acc : MetricsAcc) :
    (steps.foldl stepFold acc).interrogative =
      acc.interrogative + steps.countP countsInterrogative := by
  induction steps generalizing acc with
  | nil => simp
  | cons s t ih =>
    rw [List.foldl_cons, ih, List.countP_cons, (stepFold_fields acc s).2.1]
    omega

/-- The metrics fold counts imperative steps. -/
theorem foldl_stepFold_imperative (steps : List PromptStep) (acc : MetricsAcc) :
    (steps.foldl stepFold acc).imperative =
      acc.imperative + steps.countP countsImperative := by
  induction steps generalizing acc with
  | nil => simp
  | cons s t ih =>
    rw [List.foldl_cons, ih, List.countP_cons, (stepFold_fields acc s).2.2.1]
    omega

/-- The metrics fold counts narrative steps. -/
theorem foldl_stepFold_narrative (steps : List PromptStep) (acc : MetricsAcc) :
    (steps.foldl stepFold acc).narrative =
      acc.narrative + steps.countP countsNarrative := by
  induction steps generalizing acc with
  | nil => simp
  | cons s t ih =>
    rw [List.foldl_cons, ih, List.countP_cons, (stepFold_fields acc s).2.2.2]
    omega

/-- The metrics fold sums prompt lengths. -/
theorem foldl_stepFold_totalPromptChars (steps : List PromptStep) (acc : MetricsAcc) :
    (steps.foldl stepFold acc).totalPromptChars =
      acc.totalPromptChars + (steps.map (fun s => s.prompt.data.length)).sum := by
  induction steps generalizing acc with
  | nil => simp
  | cons s t ih =>
    rw [List.foldl_cons, ih, List.map_cons, List.sum_cons, (stepFold_fields acc s).1]
    omega

/-- The three ordered style predicates partition any step list. -/
theorem countP_style_partition (steps : List PromptStep) :
    steps.countP countsInterrogative + steps.countP countsImperative +
      steps.countP countsNarrative = steps.length := by
  induction steps with
  | nil => rfl
  | cons s t ih =>
    simp only [List.countP_cons, List.length_cons]
    by_cases h1 : isInterrogative s.prompt <;>
      by_cases h2 : isImperative s.prompt <;>
        simp [countsInterrogative, countsImperative, countsNarrative, h1, h2] <;>
          omega

/-- **C3.** `computeChainMetrics` counts each step in exactly one style
bucket, decided in order (interrogative: prompt ends with `?` up to
trailing whitespace; else imperative: first word, lowercased, in the fixed
verb list; else narrative), so the three counts sum to the step count. -/
theorem computeChainMetrics_style_partition (chain : PromptChain) :
    (computeChainMetrics chain).prompts.styleCounts.interrogative =
        chain.steps.countP countsInterrogative ∧
    (computeChainMetrics chain).prompts.styleCounts.imperative =
        chain.steps.countP countsImperative ∧
    (computeChainMetrics chain).prompts.styleCounts.narrative =
        chain.steps.countP countsNarrative ∧
    (computeChainMetrics chain).prompts.styleCounts.interrogative +
        (computeChainMetrics chain).prompts.styleCounts.imperative +
        (computeChainMetrics chain).prompts.styleCounts.narrative =
      chain.steps.length := by
  have e1 : (computeChainMetrics chain).prompts.styleCounts.interrogative =
      (chain.steps.foldl stepFold ⟨∅, 0, 0, 0, 0, 0, 0, 0⟩).interrogative := rfl
  have e2 : (computeChainMetrics chain).prompts.styleCounts.imperative =
      (chain.steps.foldl stepFold ⟨∅, 0, 0, 0, 0, 0, 0, 0⟩).imperative := rfl
  have e3 : (computeChainMetrics chain).prompts.styleCounts.narrative =
      (chain.steps.foldl stepFold ⟨∅, 0, 0, 0, 0, 0, 0, 0⟩).narrative := rfl
  rw [e1, e2, e3, foldl_stepFold_interrogative, foldl_stepFold_imperative,
    foldl_stepFold_narrative]
  refine ⟨by simp, by simp, by simp, ?_⟩
  simpa using countP_style_partition chain.steps

/-- **C7.** `durationMs` is `max(0, endTime - startTime)` when an end time
is present, `0` when absent, and always non-negative. -/
theorem computeChainMetrics_duration (chain : PromptChain) :
    (chain.endTime = none → (computeChainMetrics chain).durationMs = 0) ∧
    (∀ e : Int, chain.endTime = some e →
        (computeChainMetrics chain).durationMs = max 0 (e - chain.startTime)) ∧
    0 ≤ (computeChainMetrics chain).durationMs := by
  have hd : (computeChainMetrics chain).durationMs =
      max 0 ((chain.endTime.getD chain.startTime) - chain.startTime) := rfl
  refine ⟨?_, ?_, ?_⟩
  · intro h
    rw [hd, h]
    simp
  · intro e he
    rw [hd, he]
    rfl
  · rw [hd]
    exact le_max_left 0 _

/-- Witness for C7 on a concrete ended chain. -/
theorem computeChainMetrics_duration_witness :
    (computeChainMetrics
        { chainId := "c7", startTime := 5, endTime := some 12, steps := [] }).durationMs =
      max 0 (12 - 5) :=
  (computeChainMetrics_duration _).2.1 12 rfl

/-- JS `Math.round` of a non-negative quotient, as an integer rounding. -/
theorem jsRoundDiv_eq_round (a b : Nat) (hb : 0 < b) :
    (jsRoundDiv a b : ℤ) = round ((a : ℚ) / (b : ℚ)) := by
  have hb' : ((b : ℚ)) ≠ 0 := Nat.cast_ne_zero.mpr hb.ne'
  rw [round_eq]
  have hx : (a : ℚ) / (b : ℚ) + 1 / 2 = ((2 * a + b : ℕ) : ℚ) / ((2 * b : ℕ) : ℚ) := by
    push_cast
    field_simp
    ring
  rw [hx, ← Int.natCast_floor_eq_floor (by positivity), Nat.floor_div_eq_div]
  rfl

/-- **C8.** `avgLengthChars` is the rounded quotient of the total prompt
character count by the step count, and `0` for a zero-step chain (the
division is guarded, so no error is possible). -/
theorem computeChainMetrics_avgLength (chain : PromptChain) :
    (chain.steps.length = 0 → (computeChainMetrics chain).prompts.avgLengthChars = 0) ∧
    (0 < chain.steps.length →
      ((computeChainMetrics chain).prompts.avgLengthChars : ℤ) =
        round ((Nat.cast ((chain.steps.map (fun s => s.prompt.data.length)).sum) : ℚ) /
          (chain.steps.length : ℚ))) := by
  have havg : (computeChainMetrics chain).prompts.avgLengthChars =
      if chain.steps.length > 0 then
        jsRoundDiv (chain.steps.foldl stepFold ⟨∅, 0, 0, 0, 0, 0, 0, 0⟩).totalPromptChars
          chain.steps.length
      else 0 := rfl
  constructor
  · intro h
    rw [havg, h]
    rfl
  · intro h
    have htot : (chain.steps.foldl stepFold
        (⟨∅, 0, 0, 0, 0, 0, 0, 0⟩ : MetricsAcc)).totalPromptChars =
        (chain.steps.map (fun s => s.prompt.data.length)).sum := by
      simpa using foldl_stepFold_totalPromptChars chain.steps ⟨∅, 0, 0, 0, 0, 0, 0, 0⟩
    rw [havg, if_pos h, htot, jsRoundDiv_eq_round _ _ h]

/-- Witness for C8 on a concrete two-step chain (lengths 3 and 4, average
rounds 3.5 up to 4). -/
theorem computeChainMetrics_avgLength_witness :
    0 < sampleChain.steps.length ∧
    ((computeChainMetrics sampleChain).prompts.avgLengthChars : ℤ) =
      round ((Nat.cast ((sampleChain.steps.map (fun s => s.prompt.data.length)).sum) : ℚ) /
        (sampleChain.steps.length : ℚ)) :=
  ⟨by decide, (computeChainMetrics_avgLength sampleChain).2 (by decide)⟩

/-! ## Theorems: ChainLifecycle -/

/-- **C5.** `addStep` with no active chain fails with the definite
"no active chain" error (the state is aborted unchanged, since no new
state is produced); with an active chain it appends exactly one new step
to that chain's steps and the lifecycle stays Active. -/
theorem addStep_spec (st : ManagerState) (freshId : String) (now : Int)
    (prompt response : String) (fileDiffs : Option (List FileDiff)) :
    (st.currentChain = none →
      addStep st freshId now prompt response fileDiffs =
        Except.error "No active prompt chain. Call startChain() first.") ∧
    (∀ chain, st.currentChain = some chain →
      addStep st freshId now prompt response fileDiffs =
        Except.ok
          ({ currentChain := some { chain with steps := chain.steps ++
              [{ id := freshId, timestamp := now, prompt := prompt,
                 response := response, fileDiffs := fileDiffs }] } },
           { id := freshId, timestamp := now, prompt := prompt,
             response := response, fileDiffs := fileDiffs })) := by
  constructor
  · intro h
    simp [addStep, h]
  · intro chain h
    simp [addStep, h]

/-- Witness for C5: idle state errors, active state appends the step. -/
theorem addStep_spec_witness :
    addStep { currentChain := none } "s9" 7 "p" "r" none =
      Except.error "No active prompt chain. Call startChain() first." ∧
    addStep { currentChain := some sampleChain } "s9" 7 "p" "r" none =
      Except.ok
        ({ currentChain := some { sampleChain with steps := sampleChain.steps ++
            [{ id := "s9", timestamp := 7, prompt := "p", response := "r",
               fileDiffs := none }] } },
         { id := "s9", timestamp := 7, prompt := "p", response := "r",
           fileDiffs := none }) :=
  ⟨(addStep_spec { currentChain := none } "s9" 7 "p" "r" none).1 rfl,
   (addStep_spec { currentChain := some sampleChain } "s9" 7 "p" "r" none).2
     sampleChain rfl⟩

/-- **C6.** `endChain` while Active stamps end time, commit SHA and
branch, returns the sealed chain, and leaves the lifecycle Idle
(`getCurrentChain` is `null` afterwards); while Idle it returns `null`
and changes no state. -/
theorem endChain_spec (st : ManagerState) (now : Int)
    (commitSha branch : Option String) :
    (st.currentChain = none → endChain st now commitSha branch = (st, none)) ∧
    (∀ chain, st.currentChain = some chain →
      endChain st now commitSha branch =
        ({ currentChain := none },
         some { chain with endTime := some now, commitSha := commitSha, branch := branch }) ∧
      getCurrentChain (endChain st now commitSha branch).1 = none) := by
  constructor
  · intro h
    simp [endChain, h]
  · intro chain h
    constructor
    · simp [endChain, h]
    · simp [endChain, getCurrentChain, h]

/-- Witness for C6: idle state is a no-op returning `none`, active state
seals and detaches the chain. -/
theorem endChain_spec_witness :
    endChain { currentChain := none } 9 (some "sha1") (some "main") =
      ({ currentChain := none }, none) ∧
    endChain { currentChain := some sampleChain } 9 (some "sha1") (some "main") =
      ({ currentChain := none },
       some { sampleChain with endTime := some 9, commitSha := some "sha1", branch := some "main" }) :=
  ⟨(endChain_spec { currentChain := none } 9 (some "sha1") (some "main")).1 rfl,
   ((endChain_spec { currentChain := some sampleChain } 9 (some "sha1")
       (some "main")).2 sampleChain rfl).1⟩

/-! ## Theorems: ChainStore commit index -/

/-- Membership through the `new Set(list)` insertion fold. -/
theorem mem_foldl_setInsert (l acc : List String) (y : String) :
    (y ∈ l.foldl (fun acc x => if x ∈ acc then acc else acc ++ [x]) acc) ↔
      y ∈ acc ∨ y ∈ l := by
  induction l generalizing acc with
  | nil => simp
  | cons a t ih =>
    simp only [List.foldl_cons]
    by_cases h : a ∈ acc
    · rw [if_pos h, ih, List.mem_cons]
      constructor
      · rintro (hy | hy)
        · exact Or.inl hy
        · exact Or.inr (Or.inr hy)
      · rintro (hy | hy | hy)
        · exact Or.inl hy
        · exact Or.inl (by rwa [hy])
        · exact Or.inr hy
    · rw [if_neg h, ih]
      simp [List.mem_append, List.mem_cons, or_assoc]

/-- The `new Set(list)` insertion fold never creates duplicates. -/
theorem nodup_foldl_setInsert (l : List String) :
    ∀ acc : List String, acc.Nodup →
      (l.foldl (fun acc x => if x ∈ acc then acc else acc ++ [x]) acc).Nodup := by
  induction l with
  | nil => exact fun acc h => h
  | cons a t ih =>
    intro acc h
    simp only [List.foldl_cons]
    by_cases ha : a ∈ acc
    · rw [if_pos ha]
      exact ih acc h
    · rw [if_neg ha]
      refine ih (acc ++ [a]) ?_
      simp [List.nodup_append, h, ha]

/-- `Array.from(new Set(l))` keeps exactly the members of `l`. -/
theorem mem_jsSetFrom (l : List String) (y : String) :
    y ∈ jsSetFrom l ↔ y ∈ l := by
  simpa using mem_foldl_setInsert l [] y

/-- `Array.from(new Set(l))` has no duplicates. -/
theorem nodup_jsSetFrom (l : List String) : (jsSetFrom l).Nodup :=
  nodup_foldl_setInsert l [] (by simp)

/-- `Set.prototype.add` membership. -/
theorem mem_jsSetAdd (s : List String) (x y : String) :
    y ∈ jsSetAdd s x ↔ y ∈ s ∨ y = x := by
  rw [jsSetAdd]
  split_ifs with h
  · constructor
    · exact Or.inl
    · rintro (hy | rfl)
      · exact hy
      · exact h
  · simp [List.mem_append]

/-- `Set.prototype.add` preserves duplicate freedom. -/
theorem nodup_jsSetAdd (s : List String) (x : String) (h : s.Nodup) :
    (jsSetAdd s x).Nodup := by
  rw [jsSetAdd]
  split_ifs with hx
  · exact h
  · simp [List.nodup_append, h, hx]

/-- One `saveChain` on a chain committed under `sha` rewrites that SHA's
index entry to the de-duplicated old entry with the chain id added. -/
theorem indexEntry_saveChain_same (config : PromptChainManagerConfig)
    (now : Int) (st : Storage) (chain : PromptChain) (sha : String)
    (h : chain.commitSha = some sha) (hlen : 0 < sha.length) :
    indexEntry (saveChain config now st chain) sha =
      jsSetAdd (jsSetFrom (indexEntry st sha)) chain.chainId := by
  simp [saveChain, indexEntry, h, hlen]

/-- The index entry after a sequence of saves for one SHA: duplicate-free,
with exactly the initial members plus the saved chain ids. -/
theorem indexEntry_foldl_saveChain (config : PromptChainManagerConfig)
    (now : Int) (sha : String) (hlen : 0 < sha.length) :
    ∀ (chains : List PromptChain) (st : Storage),
      (∀ c ∈ chains, c.commitSha = some sha) →
      (indexEntry st sha).Nodup →
      (∀ id, id ∈ indexEntry (chains.foldl (saveChain config now) st) sha ↔
          id ∈ indexEntry st sha ∨ id ∈ chains.map PromptChain.chainId) ∧
      (indexEntry (chains.foldl (saveChain config now) st) sha).Nodup := by
  intro chains
  induction chains with
  | nil =>
    intro st _ hnd
    exact ⟨fun id => by simp, hnd⟩
  | cons c t ih =>
    intro st hall hnd
    have hc : c.commitSha = some sha := hall c (List.mem_cons_self c t)
    have hone := indexEntry_saveChain_same config now st c sha hc hlen
    have hmem1 : ∀ id, id ∈ indexEntry (saveChain config now st c) sha ↔
        id ∈ indexEntry st sha ∨ id = c.chainId := by
      intro id
      rw [hone, mem_jsSetAdd, mem_jsSetFrom]
    have hnd1 : (indexEntry (saveChain config now st c) sha).Nodup := by
      rw [hone]
      exact nodup_jsSetAdd _ _ (nodup_jsSetFrom _)
    have hrec := ih (saveChain config now st c)
      (fun x hx => hall x (List.mem_cons_of_mem c hx)) hnd1
    rw [List.foldl_cons]
    refine ⟨fun id => ?_, hrec.2⟩
    rw [(hrec.1 id), hmem1 id, List.map_cons, List.mem_cons]
    tauto

/-- **C4.** Saving any sequence of chains all committed under the same
non-empty SHA, starting from a state whose index entry for that SHA is
empty or absent, leaves exactly the distinct saved chain ids in that
entry: membership matches the saved ids, there are no duplicates, and the
entry's length is the number of distinct ids. -/
theorem saveChain_commit_index (config : PromptChainManagerConfig)
    (now : Int) (sha : String) (hlen : 0 < sha.length)
    (chains : List PromptChain)
    (hall : ∀ c ∈ chains, c.commitSha = some sha)
    (st : Storage) (hst : indexEntry st sha = []) :
    (∀ id, id ∈ indexEntry (chains.foldl (saveChain config now) st) sha ↔
        id ∈ chains.map PromptChain.chainId) ∧
    (indexEntry (chains.foldl (saveChain config now) st) sha).Nodup ∧
    (indexEntry (chains.foldl (saveChain config now) st) sha).length =
      (chains.map PromptChain.chainId).dedup.length := by
  have h := indexEntry_foldl_saveChain config now sha hlen chains st hall
    (by rw [hst]; exact List.nodup_nil)
  have hmem : ∀ id, id ∈ indexEntry (chains.foldl (saveChain config now) st) sha ↔
      id ∈ chains.map PromptChain.chainId := by
    intro id
    rw [h.1 id, hst]
    simp
  refine ⟨hmem, h.2, ?_⟩
  have hperm : List.Perm
      (indexEntry (chains.foldl (saveChain config now) st) sha)
      ((chains.map PromptChain.chainId).dedup) := by
    rw [List.perm_ext_iff_of_nodup h.2 (List.nodup_dedup _)]
    intro id
    rw [hmem id, List.mem_dedup]
  exact hperm.length_eq

/-- Witness for C4: chains `a`, `b`, `a` saved under `sha1` produce a
two-element duplicate-free entry holding exactly `a` and `b`. -/
theorem saveChain_commit_index_witness :
    0 < ("sha1" : String).length ∧
    (("a" : String) ∈
        indexEntry ([chainA, chainB, chainA].foldl
          (saveChain sampleConfig 0) emptyStorage) "sha1" ↔
      ("a" : String) ∈ [chainA, chainB, chainA].map PromptChain.chainId) ∧
    (indexEntry ([chainA, chainB, chainA].foldl
        (saveChain sampleConfig 0) emptyStorage) "sha1").Nodup ∧
    (indexEntry ([chainA, chainB, chainA].foldl
        (saveChain sampleConfig 0) emptyStorage) "sha1").length =
      ([chainA, chainB, chainA].map PromptChain.chainId).dedup.length := by
  have h := saveChain_commit_index sampleConfig 0 "sha1" (by decide)
    [chainA, chainB, chainA] (by decide) emptyStorage rfl
  exact ⟨by decide, h.1 "a", h.2.1, h.2.2⟩

/-- **C10.** Saving a chain whose commit SHA is absent or empty only
writes the primary `chain-<chainId>.json` entry; the commit duplicates
and the commit index are untouched. -/
theorem saveChain_no_commit_frame (config : PromptChainManagerConfig)
    (now : Int) (st : Storage) (chain : PromptChain)
    (h : chain.commitSha = none ∨ chain.commitSha = some "") :
    saveChain config now st chain =
      { st with
        chainFiles := fun k =>
          if k = chain.chainId then some (mkDocument config now chain)
          else st.chainFiles k } := by
  rcases h with h | h <;> simp [saveChain, h]

/-- Witness for C10: saving `sampleChain` (no commit SHA) into the empty
storage only installs its primary file. -/
theorem saveChain_no_commit_frame_witness :
    saveChain sampleConfig 0 emptyStorage sampleChain =
      { emptyStorage with
        chainFiles := fun k =>
          if k = sampleChain.chainId then some (mkDocument sampleConfig 0 sampleChain)
          else emptyStorage.chainFiles k } :=
  saveChain_no_commit_frame sampleConfig 0 emptyStorage sampleChain (Or.inl rfl)

end GitPromptChain
